import Mathlib

/-!
Verification of the agent control loop repository.

The definitions below are a shallow embedding of the Python sources:
`src/core/definitions/models.py` (the action vocabulary and the persisted
memory record), `src/core/brain/memory.py` (queue and todo operations),
`src/core/execution/action_handler.py` and `src/core/execution/task_manager.py`
(dispatch), `src/core/resource_manager.py` (daily quota and path safety),
`src/core/brain/reason.py` (the reasoning adapter), `src/core/utilities.py`
(JSON persistence), and the review-gate dispatcher of `core/agent_core.py`.
Python dictionaries are embedded as association lists, files on disk as an
association list from path to content, raised exceptions as `Except` or
`Option` results, and the JSON text layer as a tree of JSON values.
-/

namespace Agent

/-- JSON values, the image of `json.dump` / pydantic validation
(`src/core/utilities.py`).  Numbers are restricted to the integers actually
stored by the program (counters). -/
inductive JVal where
  | jnull : JVal
  | jbool : Bool → JVal
  | jnum : Int → JVal
  | jstr : String → JVal
  | jarr : List JVal → JVal
  | jobj : List (String × JVal) → JVal
deriving Repr

/-- `Count` enum of `models.py`: the only member is `REASON`. -/
inductive Count where
  | REASON : Count
deriving DecidableEq, Repr

/-- `ToDoType` enum of `models.py`. -/
inductive ToDoType where
  | INSERT : ToDoType
  | APPEND : ToDoType
  | REMOVE : ToDoType
  | NONE : ToDoType
deriving DecidableEq, Repr

/-- The closed action vocabulary of `models.py` (`ActionUnion`): each
constructor carries the `explanation` field of `BaseAction` first and then
its variant-specific fields, in source order.  The `slumber` constructor is
modelled from the spec: `SlumberAction` is imported by `reason.py` and
`action_handler.py` but its class is absent from `definitions/models.py`;
its fields (`seconds`, `explanation`) are reconstructed from those call
sites and the pause/slumber action of the spec. -/
inductive PAction where
  | noOp (explanation : String)
  | reason (explanation task : String) (files_to_send thoughts_to_send : List String)
  | think (explanation : String) (delete : Bool) (label thought : String)
  | runTool (explanation module tool_class : String) (arguments : List (String × JVal))
  | updateTodo (explanation : String) (todo_type : ToDoType) (todo_item : String)
  | readFile (explanation file_path : String)
  | writeFile (explanation file_path use_thought contents : String)
  | deleteFile (explanation file_path : String)
  | terminate (explanation : String)
  | slumber (explanation : String) (seconds : Int)
deriving Repr

/-- The persisted memory record `Mem` of `models.py`. -/
structure Mem where
  action_queue : List PAction := []
  counters : List (Count × Int) := []
  file_contents : List (String × String) := []
  thoughts : List (String × String) := []
  logs : List String := []
  todo : List String := []
  last_memorized : String := ""
  deployed_at : String := ""
  is_test : Bool := false
deriving Repr

/-- `Memory.pop_action` (`src/core/brain/memory.py`): returns `None` and
leaves the queue alone when it is empty, otherwise removes and returns the
front element. -/
def Mem.pop_action (m : Mem) : Option PAction × Mem :=
  match m.action_queue with
  | [] => (none, m)
  | a :: rest => (some a, { m with action_queue := rest })

/-- `Memory.pop_last_action` (`src/core/brain/memory.py`): returns `None`
when the queue is empty, otherwise removes and returns the last element. -/
def Mem.pop_last_action (m : Mem) : Option PAction × Mem :=
  match m.action_queue.getLast? with
  | none => (none, m)
  | some a => (some a, { m with action_queue := m.action_queue.dropLast })

/-- `Memory.add_action`. -/
def Mem.add_action (m : Mem) (a : PAction) : Mem :=
  { m with action_queue := m.action_queue ++ [a] }

/-- `Memory.prepend_action`. -/
def Mem.prepend_action (m : Mem) (a : PAction) : Mem :=
  { m with action_queue := a :: m.action_queue }

/-- `Memory.add_actions`: extends the queue with a list (no-op on `[]`,
matching the `if actions:` guard). -/
def Mem.add_actions (m : Mem) (as : List PAction) : Mem :=
  match as with
  | [] => m
  | _ => { m with action_queue := m.action_queue ++ as }

/-- `Memory.empty_actions`. -/
def Mem.empty_actions (m : Mem) : Mem :=
  { m with action_queue := [] }

/-- `Memory.remove_todo`: `self.memory.todo.pop(0)` raises `IndexError`
on an empty list; the raise is embedded as `none`. -/
def Mem.remove_todo (m : Mem) : Option Mem :=
  match m.todo with
  | [] => none
  | _ :: rest => some { m with todo := rest }

/-- `Memory.add_todo`. -/
def Mem.add_todo (m : Mem) (item : String) : Mem :=
  { m with todo := m.todo ++ [item] }

/-- `Memory.add_immediate_todo`. -/
def Mem.add_immediate_todo (m : Mem) (item : String) : Mem :=
  { m with todo := item :: m.todo }

/-- `Memory.fill_file_contents`: dictionary insert/overwrite, embedded as
cons onto the association list. -/
def Mem.fill_file_contents (m : Mem) (fp contents : String) : Mem :=
  { m with file_contents := (fp, contents) :: m.file_contents.filter (fun kv => kv.1 ≠ fp) }

/-- `Memory.remove_file`. -/
def Mem.remove_file (m : Mem) (fp : String) : Mem :=
  { m with file_contents := m.file_contents.filter (fun kv => kv.1 ≠ fp) }

/-- `Memory.get_filepaths`: the tracked keys of the file-content mapping. -/
def Mem.get_filepaths (m : Mem) : List String :=
  m.file_contents.map (fun kv => kv.1)

/-- `TaskManager.dequeue_action` (`src/core/execution/task_manager.py`):
returns `None` on an empty queue, otherwise pops the front and persists. -/
def dequeue_action (queue : List PAction) : Option PAction × List PAction :=
  match queue with
  | [] => (none, queue)
  | a :: rest => (some a, rest)

/-- `ActionHandler._handle_update_todo` (`src/core/execution/action_handler.py`):
`NONE` returns immediately, `APPEND` calls `add_todo`, `INSERT` calls
`add_immediate_todo`, `REMOVE` calls `remove_todo` (which raises on an empty
list, embedded as `none`).  Logging is omitted. -/
def handle_update_todo (m : Mem) (todo_type : ToDoType) (todo_item : String) : Option Mem :=
  match todo_type with
  | ToDoType.NONE => some m
  | ToDoType.APPEND => some (m.add_todo todo_item)
  | ToDoType.INSERT => some (m.add_immediate_todo todo_item)
  | ToDoType.REMOVE => m.remove_todo

/-- Resource state of `ResourceManager` (`src/core/resource_manager.py`):
the `resources` dictionary restricted to the keys the quota logic touches.
`none` models a missing key; for `last_run_date` it also models the
unparsable-string branch of `_check_daily_reset`, which forces a reset.
Dates are days since an epoch, so the wall clock advancing is `<` on `Nat`. -/
structure RState where
  daily_reasoning_count : Option Int := none
  last_run_date : Option Nat := none
deriving Repr

/-- `ResourceManager.get_daily_reasoning_count`: defaults to 0 when the key
is missing. -/
def get_daily_reasoning_count (st : RState) : Int :=
  st.daily_reasoning_count.getD 0

/-- `ResourceManager._check_daily_reset`: on a missing/invalid stored date
or when today is later than the stored date, the count is set to the
configured maximum and the date to today; otherwise only the date tracking
is refreshed. -/
def check_daily_reset (maxSteps : Int) (today : Nat) (st : RState) : RState :=
  match st.last_run_date with
  | none =>
      { st with daily_reasoning_count := some maxSteps, last_run_date := some today }
  | some d =>
      if today > d then
        { st with daily_reasoning_count := some maxSteps, last_run_date := some today }
      else
        { st with last_run_date := some today }

/-- `ResourceManager.record_reasoning_step`: decrements when positive and
reports success, otherwise reports failure and changes nothing. -/
def record_reasoning_step (st : RState) : Bool × RState :=
  let current := get_daily_reasoning_count st
  if current > 0 then
    (true, { st with daily_reasoning_count := some (current - 1) })
  else
    (false, st)

/-- A quota operation: the manager either runs its daily-reset check or
records a reasoning step. -/
inductive QuotaOp where
  | checkReset (today : Nat) : QuotaOp
  | recordStep : QuotaOp
deriving Repr

/-- One quota operation applied to the state. -/
def applyQuotaOp (maxSteps : Int) (st : RState) : QuotaOp → RState
  | QuotaOp.checkReset today => check_daily_reset maxSteps today st
  | QuotaOp.recordStep => (record_reasoning_step st).2

/-- A run of the quota machinery: the `ResourceManager` constructor loads an
empty state on a fresh run and immediately performs the daily-reset check,
then any sequence of operations follows. -/
def runQuota (maxSteps : Int) (today0 : Nat) (ops : List QuotaOp) : RState :=
  ops.foldl (applyQuotaOp maxSteps) (check_daily_reset maxSteps today0 {})

/-- Python `str.split(sep)` on a single-character separator, over the
character list of the string; empty fields are kept, as in Python. -/
def splitChar (sep : Char) : List Char → List (List Char)
  | [] => [[]]
  | c :: rest =>
      if c = sep then [] :: splitChar sep rest
      else
        match splitChar sep rest with
        | [] => [[c]]
        | p :: ps => (c :: p) :: ps

/-- The component walk of `posixpath.normpath` on an absolute path: empty
components and `.` are dropped, `..` removes the previous component (and is
dropped at the root), everything else is kept. -/
def normParts (comps : List (List Char)) : List (List Char) :=
  comps.foldl
    (fun acc c =>
      if c = [] ∨ c = ['.'] then acc
      else if c = ['.', '.'] then acc.dropLast
      else acc ++ [c])
    []

/-- Joining normalised components back into an absolute POSIX path. -/
def joinAbs (parts : List (List Char)) : List Char :=
  '/' :: List.intercalate ['/'] parts

/-- `os.path.abspath` on POSIX: `normpath(join(cwd, path))`, where the join
returns `path` unchanged when it is already absolute.  `cwd` is the process
working directory and is assumed absolute. -/
def abspathData (cwd p : List Char) : List Char :=
  if ['/'].isPrefixOf p then joinAbs (normParts (splitChar '/' p))
  else joinAbs (normParts (splitChar '/' (cwd ++ '/' :: p)))

/-- String-level wrapper of `abspathData`. -/
def abspath (cwd p : String) : String :=
  String.mk (abspathData cwd.data p.data)

/-- Python `str.startswith`. -/
def pyStartswith (s pre : String) : Bool :=
  pre.data.isPrefixOf s.data

/-- `ResourceManager.__init__`: `self.workspace_dir = os.path.abspath('workspace')`. -/
def workspace_dir (cwd : String) : String :=
  abspath cwd "workspace"

/-- `ResourceManager.is_file_path_safe`: empty paths are rejected, otherwise
the absolute resolution of the path must start (as a string) with the
workspace directory. -/
def is_file_path_safe (cwd : String) (file_path : String) : Bool :=
  if file_path = "" then false
  else pyStartswith (abspath cwd file_path) (workspace_dir cwd)

/-- The spec notion the path check is measured against: a path is a
descendant of a root when it equals the root or extends it past a path
separator. -/
def isDescendant (r root : String) : Bool :=
  r == root || (root ++ "/").data.isPrefixOf r.data

/-- Files on disk: an association list from path to content. -/
def Disk := List (String × String)

/-- Reading a file (`utilities` read helper): `none` models the raised
`FileNotFoundError`. -/
def disk_read (d : Disk) (fp : String) : Option String :=
  List.lookup fp d

/-- Writing a file: create or overwrite. -/
def disk_write (d : Disk) (fp contents : String) : Disk :=
  (fp, contents) :: List.filter (fun kv => kv.1 ≠ fp) d

/-- `utilities.delete_file`: removes the file when it exists. -/
def disk_delete (d : Disk) (fp : String) : Disk :=
  List.filter (fun kv => kv.1 ≠ fp) d

/-- `ActionHandler._handle_read_file` (`src/core/execution/action_handler.py`):
resolves the target to an absolute path, raises when the (dead) emptiness
guard fires or when the resolved path is not a tracked key, otherwise reads
the file and fills the memory mapping.  Raises are embedded as `Except.error`;
a raise leaves both the memory and the disk as they were, which the
embedding renders by returning no new state. -/
def handle_read_file (cwd fp : String) (m : Mem) (d : Disk) : Except String (Mem × Disk) :=
  let afp := abspath cwd fp
  if afp = "" then
    Except.error "READ_FILE action requires file_path argument."
  else if afp ∈ m.get_filepaths then
    match disk_read d afp with
    | none => Except.error "file not found"
    | some contents => Except.ok (m.fill_file_contents afp contents, d)
  else
    Except.error "READ_FILE file path is not tracked in memory."

/-- `ActionHandler._handle_delete_file`: same guards as `_handle_read_file`,
then deletes from disk and drops the key from the mapping. -/
def handle_delete_file (cwd fp : String) (m : Mem) (d : Disk) : Except String (Mem × Disk) :=
  let afp := abspath cwd fp
  if afp = "" then
    Except.error "DELETE_FILE action requires file_path argument."
  else if afp ∈ m.get_filepaths then
    Except.ok (m.remove_file afp, disk_delete d afp)
  else
    Except.error "DELETE_FILE file path is not tracked in memory."

/-- `Memory.__init__` seeding (`src/core/brain/memory.py`): when the mapping
is empty it becomes `{path: "" for path in scan_workspace(root_dir=".")}`.
`scan_workspace` (`src/core/utilities.py`) emits paths relative to the scan
root, so the seeded keys never start with a path separator; the seeding is
parameterised by the scanned path list. -/
def seed_from_scan (paths : List String) (m : Mem) : Mem :=
  { m with file_contents := paths.map (fun p => (p, "")) }

/-- Python whitespace for `str.strip`. -/
def pySpace (c : Char) : Bool :=
  c = ' ' ∨ c = '\t' ∨ c = '\n' ∨ c = '\x0d' ∨ c = '\x0b' ∨ c = '\x0c'

/-- Python `str.strip()` over the character list. -/
def pyStripData (cs : List Char) : List Char :=
  ((cs.dropWhile pySpace).reverse.dropWhile pySpace).reverse

/-- Python `str.strip()`. -/
def pyStrip (s : String) : String :=
  String.mk (pyStripData s.data)

/-- Python `content.split(chr, 1)`: the part before the first separator and,
when a separator occurs, the rest. -/
def splitOnceData (sep : Char) : List Char → List Char × Option (List Char)
  | [] => ([], none)
  | c :: rest =>
      if c = sep then ([], some rest)
      else
        let (a, b) := splitOnceData sep rest
        (c :: a, b)

/-- The payload split of the write branch of `ActionHandler.execute_action`
(`core/agent_core.py`): `parts = content.split(newline, 1)`,
`file_path = parts[0].strip()`, `file_content = parts[1].strip()` when a
second part exists, else the empty string. -/
def splitWritePayload (content : String) : String × String :=
  let (a, b) := splitOnceData '\n' content.data
  (pyStrip (String.mk a),
    match b with
    | none => ""
    | some bs => pyStrip (String.mk bs))

/-- The protected-path classification of `ActionHandler.execute_action`
(`src/src/core/agent_core.py`): the goal file, the core source file
`core/agent_core.py`, and everything under `secondary/`. -/
def is_protected_path (goal_file_path fp : String) : Bool :=
  fp == goal_file_path || fp == "core/agent_core.py" || pyStartswith fp "secondary/"

/-- The proposal observation returned instead of performing a protected
write; string interpolation of the f-string rendered as concatenation. -/
def proposal_obs (fp fc : String) : String :=
  "ACTION PROPOSAL: CORE FILE MODIFICATION\nTARGET: " ++ fp ++
    "\n--- PROPOSED CONTENT START ---\n" ++ fc ++
    "\n--- PROPOSED CONTENT END ---\nAwaiting Architect Review, Version Control, and Deployment."

/-- `ActionHandler._write_file` (`core/agent_core.py`): refuses the three
critical configuration files, otherwise creates or overwrites the file.
Observation messages are abbreviated (the path interpolation is elided). -/
def write_file_obs (d : Disk) (fp content : String) : String × Disk :=
  if fp = ".env" ∨ fp = "docker-compose.yml" ∨ fp = "Dockerfile" then
    ("Error: Writing to critical configuration file is disabled for safety.", d)
  else
    ("Success: File written/modified.", disk_write d fp content)

/-- The dispatch of `ActionHandler.execute_action` (`core/agent_core.py`)
from the point where the action string has been parsed into an upper-cased
action type and a stripped content payload.  The `RUN_COMMAND`,
`ASK_USER_QUESTION` and `SLUMBER` branches shell out, prompt, or sleep and
are outside the modelled state (they do not touch the write gate); they are
collapsed into the final observation-only fallthrough. -/
def execute_action_gate (goal_file_path action_type content : String) (d : Disk) :
    String × Disk :=
  if action_type = "READ_FILE" then
    match disk_read d content with
    | some _ => ("Success: File read. Content stored in memory.", d)
    | none => ("Error: File not found in the current workspace.", d)
  else if action_type = "GENERATE_FILE" ∨ action_type = "MODIFY_FILE" ∨
      action_type = "WRITE_FILE" then
    let (fp, fc) := splitWritePayload content
    if is_protected_path goal_file_path fp then (proposal_obs fp fc, d)
    else write_file_obs d fp fc
  else
    ("Error: Unknown action type.", d)

/-- Is the action a `Terminate`? -/
def is_terminate : PAction → Bool
  | PAction.terminate _ => true
  | _ => false

/-- Is the action a `Reason`? -/
def is_reason : PAction → Bool
  | PAction.reason _ _ _ _ => true
  | _ => false

/-- Does the action list end in a `Reason` action (the continuation
invariant of the reasoning contract)? -/
def last_is_reason (resp : List PAction) : Bool :=
  match resp.getLast? with
  | some a => is_reason a
  | none => false

/-- Modelled from the spec: the empty-todo transition of `AgentCore.run`
(the loop itself is absent from the sources; only its tests and callees
survive).  Per the spec, the loop discards the current queue contents
except the most recently queued action, pushes a synthetic `Terminate`
action, and re-appends the preserved action.  Built from the source
`Memory` operations `pop_last_action`, `empty_actions` and `add_action`. -/
def todo_empty_transform (m : Mem) : Mem :=
  let (last, m1) := m.pop_last_action
  let m2 := m1.empty_actions
  let m3 := m2.add_action (PAction.terminate "todo list is empty")
  match last with
  | none => m3
  | some a => m3.add_action a

/-- Modelled from the spec: the `AgentCore.run` loop, parameterised by the
dispatch routine and a fuel bound.  Each iteration applies the empty-todo
transition when the todo list is empty, pops the front action, stops when
the queue is exhausted or a `Terminate` action is popped, and otherwise
dispatches the action (recorded in the returned trace) and continues. -/
def run_loop (dispatch : PAction → Mem → Mem) : Nat → Mem → Mem × List PAction
  | 0, m => (m, [])
  | Nat.succ fuel, m =>
      let m0 := if m.todo.isEmpty then todo_empty_transform m else m
      let (popped, m1) := m0.pop_action
      match popped with
      | none => (m1, [])
      | some a =>
          if is_terminate a then (m1, [])
          else
            let next := run_loop dispatch fuel (dispatch a m1)
            (next.1, a :: next.2)

/-- Modelled from the spec: the debug `Reason` task synthesised when a
reasoning response is empty or does not end in a `Reason` action; the
original task is kept verbatim inside it. -/
def debug_reason_task (orig : String) : String :=
  "diagnose why the previous reasoning step produced no/invalid continuation for task: " ++ orig

/-- Modelled from the spec: the synthetic debug `Reason` action. -/
def debug_reason_action (orig : String) : PAction :=
  PAction.reason "recover from an invalid reasoning response" (debug_reason_task orig) [] []

/-- Modelled from the spec: how the loop folds a reasoning-service response
into memory.  A well-formed response (non-empty, ending in `Reason`) is
enqueued as is; an anomalous one is logged (not modelled), enqueued, and
followed by exactly one synthetic debug `Reason` action, with the
previously-active task pushed back onto the front of the todo list.  Built
from the source `Memory` operations `add_actions`, `add_action` and
`add_immediate_todo`. -/
def handle_reason_response (origTask : String) (resp : List PAction) (m : Mem) : Mem :=
  if resp.isEmpty || !last_is_reason resp then
    (((m.add_actions resp).add_action (debug_reason_action origTask)).add_immediate_todo origTask)
  else
    m.add_actions resp

/-- The `ActionType` discriminant string of an action (`models.py`). -/
def actionTag : PAction → String
  | PAction.noOp _ => "NO_OP"
  | PAction.reason _ _ _ _ => "REASON"
  | PAction.think _ _ _ _ => "THINK"
  | PAction.runTool _ _ _ _ => "RUN_TOOL"
  | PAction.updateTodo _ _ _ => "UPDATE_TODO"
  | PAction.readFile _ _ => "READ_FILE"
  | PAction.writeFile _ _ _ _ => "WRITE_FILE"
  | PAction.deleteFile _ _ => "DELETE_FILE"
  | PAction.terminate _ => "TERMINATE"
  | PAction.slumber _ _ => "SLUMBER"

/-- The serialised value of a `ToDoType` member. -/
def toDoTag : ToDoType → String
  | ToDoType.INSERT => "INSERT"
  | ToDoType.APPEND => "APPEND"
  | ToDoType.REMOVE => "REMOVE"
  | ToDoType.NONE => "NONE"

/-- Parsing a `ToDoType` member back from its serialised value. -/
def toDoFromTag (s : String) : Option ToDoType :=
  if s = "INSERT" then some ToDoType.INSERT
  else if s = "APPEND" then some ToDoType.APPEND
  else if s = "REMOVE" then some ToDoType.REMOVE
  else if s = "NONE" then some ToDoType.NONE
  else none

/-- The serialised key of a `Count` member. -/
def countTag : Count → String
  | Count.REASON => "REASON"

/-- Parsing a `Count` member back from its serialised key. -/
def countFromTag (s : String) : Option Count :=
  if s = "REASON" then some Count.REASON else none

/-- A JSON list of strings. -/
def jStrList (xs : List String) : JVal :=
  JVal.jarr (xs.map JVal.jstr)

/-- A JSON object with string values (a `Dict[str, str]`). -/
def jStrMap (kvs : List (String × String)) : JVal :=
  JVal.jobj (kvs.map (fun kv => (kv.1, JVal.jstr kv.2)))

/-- A JSON object for the `Dict[Count, int]` counters. -/
def jCounters (kvs : List (Count × Int)) : JVal :=
  JVal.jobj (kvs.map (fun kv => (countTag kv.1, JVal.jnum kv.2)))

/-- `pydantic.BaseModel.model_dump` of one action followed by `json.dump`
(`utilities.json_dump`), at the JSON-value level: an object holding the
discriminant tag and every field of the variant. -/
def actionToJson : PAction → JVal
  | PAction.noOp e =>
      JVal.jobj [("type", JVal.jstr "NO_OP"), ("explanation", JVal.jstr e)]
  | PAction.reason e t fs ts =>
      JVal.jobj [("type", JVal.jstr "REASON"), ("explanation", JVal.jstr e),
        ("task", JVal.jstr t), ("files_to_send", jStrList fs),
        ("thoughts_to_send", jStrList ts)]
  | PAction.think e del l th =>
      JVal.jobj [("type", JVal.jstr "THINK"), ("explanation", JVal.jstr e),
        ("delete", JVal.jbool del), ("label", JVal.jstr l), ("thought", JVal.jstr th)]
  | PAction.runTool e mo tc args =>
      JVal.jobj [("type", JVal.jstr "RUN_TOOL"), ("explanation", JVal.jstr e),
        ("module", JVal.jstr mo), ("tool_class", JVal.jstr tc),
        ("arguments", JVal.jobj args)]
  | PAction.updateTodo e tt ti =>
      JVal.jobj [("type", JVal.jstr "UPDATE_TODO"), ("explanation", JVal.jstr e),
        ("todo_type", JVal.jstr (toDoTag tt)), ("todo_item", JVal.jstr ti)]
  | PAction.readFile e fp =>
      JVal.jobj [("type", JVal.jstr "READ_FILE"), ("explanation", JVal.jstr e),
        ("file_path", JVal.jstr fp)]
  | PAction.writeFile e fp ut c =>
      JVal.jobj [("type", JVal.jstr "WRITE_FILE"), ("explanation", JVal.jstr e),
        ("file_path", JVal.jstr fp), ("use_thought", JVal.jstr ut),
        ("contents", JVal.jstr c)]
  | PAction.deleteFile e fp =>
      JVal.jobj [("type", JVal.jstr "DELETE_FILE"), ("explanation", JVal.jstr e),
        ("file_path", JVal.jstr fp)]
  | PAction.terminate e =>
      JVal.jobj [("type", JVal.jstr "TERMINATE"), ("explanation", JVal.jstr e)]
  | PAction.slumber e sec =>
      JVal.jobj [("type", JVal.jstr "SLUMBER"), ("explanation", JVal.jstr e),
        ("seconds", JVal.jnum sec)]

/-- Field access in a JSON object. -/
def jGet (k : String) : List (String × JVal) → Option JVal
  | [] => none
  | kv :: rest => if kv.1 = k then some kv.2 else jGet k rest

/-- Field access on a JSON value. -/
def jField (k : String) : JVal → Option JVal
  | JVal.jobj fs => jGet k fs
  | _ => none

/-- Expecting a JSON string. -/
def asStr : JVal → Option String
  | JVal.jstr s => some s
  | _ => none

/-- Expecting a JSON boolean. -/
def asBool : JVal → Option Bool
  | JVal.jbool b => some b
  | _ => none

/-- Expecting a JSON integer. -/
def asInt : JVal → Option Int
  | JVal.jnum n => some n
  | _ => none

/-- Expecting a JSON object. -/
def asObj : JVal → Option (List (String × JVal))
  | JVal.jobj fs => some fs
  | _ => none

/-- Expecting a JSON array. -/
def asArr : JVal → Option (List JVal)
  | JVal.jarr xs => some xs
  | _ => none

/-- Decoding a list of JSON strings. -/
def decodeStrs : List JVal → Option (List String)
  | [] => some []
  | x :: rest =>
      match asStr x, decodeStrs rest with
      | some s, some ss => some (s :: ss)
      | _, _ => none

/-- Decoding a `List[str]` value. -/
def decodeStrList (j : JVal) : Option (List String) :=
  match j with
  | JVal.jarr xs => decodeStrs xs
  | _ => none

/-- Decoding the fields of a `Dict[str, str]` object. -/
def decodeStrPairs : List (String × JVal) → Option (List (String × String))
  | [] => some []
  | kv :: rest =>
      match asStr kv.2, decodeStrPairs rest with
      | some v, some vs => some ((kv.1, v) :: vs)
      | _, _ => none

/-- Decoding a `Dict[str, str]` value. -/
def decodeStrMap (j : JVal) : Option (List (String × String)) :=
  match j with
  | JVal.jobj fs => decodeStrPairs fs
  | _ => none

/-- Decoding the fields of the `Dict[Count, int]` counters object. -/
def decodeCountPairs : List (String × JVal) → Option (List (Count × Int))
  | [] => some []
  | kv :: rest =>
      match countFromTag kv.1, asInt kv.2, decodeCountPairs rest with
      | some c, some n, some vs => some ((c, n) :: vs)
      | _, _, _ => none

/-- Decoding the counters value. -/
def decodeCounters (j : JVal) : Option (List (Count × Int)) :=
  match j with
  | JVal.jobj fs => decodeCountPairs fs
  | _ => none

/-- Pydantic validation of one serialised action
(`Action = Annotated[ActionUnion, Field(discriminator=type)]`): dispatch on
the discriminant tag, then read the fields of the matching variant. -/
def actionFromJson (j : JVal) : Option PAction := do
  let tag ← jField "type" j >>= asStr
  let e ← jField "explanation" j >>= asStr
  if tag = "NO_OP" then
    pure (PAction.noOp e)
  else if tag = "REASON" then do
    let t ← jField "task" j >>= asStr
    let fs ← jField "files_to_send" j >>= decodeStrList
    let ts ← jField "thoughts_to_send" j >>= decodeStrList
    pure (PAction.reason e t fs ts)
  else if tag = "THINK" then do
    let del ← jField "delete" j >>= asBool
    let l ← jField "label" j >>= asStr
    let th ← jField "thought" j >>= asStr
    pure (PAction.think e del l th)
  else if tag = "RUN_TOOL" then do
    let mo ← jField "module" j >>= asStr
    let tc ← jField "tool_class" j >>= asStr
    let args ← jField "arguments" j >>= asObj
    pure (PAction.runTool e mo tc args)
  else if tag = "UPDATE_TODO" then do
    let tt ← jField "todo_type" j >>= asStr >>= toDoFromTag
    let ti ← jField "todo_item" j >>= asStr
    pure (PAction.updateTodo e tt ti)
  else if tag = "READ_FILE" then do
    let fp ← jField "file_path" j >>= asStr
    pure (PAction.readFile e fp)
  else if tag = "WRITE_FILE" then do
    let fp ← jField "file_path" j >>= asStr
    let ut ← jField "use_thought" j >>= asStr
    let c ← jField "contents" j >>= asStr
    pure (PAction.writeFile e fp ut c)
  else if tag = "DELETE_FILE" then do
    let fp ← jField "file_path" j >>= asStr
    pure (PAction.deleteFile e fp)
  else if tag = "TERMINATE" then
    pure (PAction.terminate e)
  else if tag = "SLUMBER" then do
    let sec ← jField "seconds" j >>= asInt
    pure (PAction.slumber e sec)
  else none

/-- Decoding a serialised action list. -/
def decodeActions : List JVal → Option (List PAction)
  | [] => some []
  | x :: rest =>
      match actionFromJson x, decodeActions rest with
      | some a, some as => some (a :: as)
      | _, _ => none

/-- `utilities.json_dump` of the `Mem` record (after `model_dump`), at the
JSON-value level, for a well-typed record whose `last_memorized` and
`deployed_at` fields actually hold strings.  The save path of
`Memory.memorize` does not produce such a record: see `memorize_dump`. -/
def json_dump (m : Mem) : JVal :=
  JVal.jobj [
    ("action_queue", JVal.jarr (m.action_queue.map actionToJson)),
    ("counters", jCounters m.counters),
    ("file_contents", jStrMap m.file_contents),
    ("thoughts", jStrMap m.thoughts),
    ("logs", jStrList m.logs),
    ("todo", jStrList m.todo),
    ("last_memorized", JVal.jstr m.last_memorized),
    ("deployed_at", JVal.jstr m.deployed_at),
    ("is_test", JVal.jbool m.is_test)]

/-- The dump the program actually persists: `Memory.memorize`
(`src/core/brain/memory.py`, line 44) assigns `current_timestamp()` — a
float (`utilities.current_timestamp`) — into the str-typed
`last_memorized` field, and `Memory.__init__` (line 20) does the same to
`deployed_at`; pydantic does not validate on assignment, so `model_dump`
followed by `json.dump` writes JSON numbers for these two fields.  Only the
JSON type of the timestamps decides validation, so they are carried as
integers. -/
def memorize_dump (deployTs saveTs : Int) (m : Mem) : JVal :=
  JVal.jobj [
    ("action_queue", JVal.jarr (m.action_queue.map actionToJson)),
    ("counters", jCounters m.counters),
    ("file_contents", jStrMap m.file_contents),
    ("thoughts", jStrMap m.thoughts),
    ("logs", jStrList m.logs),
    ("todo", jStrList m.todo),
    ("last_memorized", JVal.jnum saveTs),
    ("deployed_at", JVal.jnum deployTs),
    ("is_test", JVal.jbool m.is_test)]

/-- `utilities.json_typed_load` with target type `Mem`
(`Mem.model_validate_json`), at the JSON-value level: a `str`-typed field
accepts only a JSON string (pydantic v2 performs no number-to-string
coercion). -/
def json_typed_load (j : JVal) : Option Mem := do
  let q ← jField "action_queue" j >>= asArr
  let queue ← decodeActions q
  let cs ← jField "counters" j >>= decodeCounters
  let fc ← jField "file_contents" j >>= decodeStrMap
  let th ← jField "thoughts" j >>= decodeStrMap
  let lg ← jField "logs" j >>= decodeStrList
  let td ← jField "todo" j >>= decodeStrList
  let lm ← jField "last_memorized" j >>= asStr
  let da ← jField "deployed_at" j >>= asStr
  let it ← jField "is_test" j >>= asBool
  pure { action_queue := queue, counters := cs, file_contents := fc,
         thoughts := th, logs := lg, todo := td, last_memorized := lm,
         deployed_at := da, is_test := it }

/-- `GeminiResponse.model_validate_json` (`src/core/brain/reason.py`), at
the JSON-value level: an object whose `actions` field is a list of valid
actions. -/
def validate_gemini_response (j : JVal) : Option (List PAction) := do
  let a ← jField "actions" j >>= asArr
  decodeActions a

/-- The outcome of the `generate_content` call inside
`Gemini.get_next_actions`: either an `APIError` with a status code, or a
response whose optional text has already passed through the JSON layer. -/
inductive ApiOutcome where
  | apiError (code : Int) : ApiOutcome
  | response (text : Option JVal) : ApiOutcome

/-- `Gemini.get_next_actions` (`src/core/brain/reason.py`): every `APIError`
(503, 429 or any other code) is converted into the fixed-wait `SLUMBER`
action followed by the original `Reason` action; a missing or empty
validated action list yields `[]`; a validation failure propagates as a
raise (`Except.error`); otherwise the validated actions are returned. -/
def gemini_get_next_actions (wait_seconds : Int) (current : PAction)
    (outcome : ApiOutcome) : Except String (List PAction) :=
  match outcome with
  | ApiOutcome.apiError _ =>
      Except.ok [PAction.slumber "gemini error, waiting to retry" wait_seconds, current]
  | ApiOutcome.response none => Except.ok []
  | ApiOutcome.response (some j) =>
      match validate_gemini_response j with
      | none => Except.error "pydantic validation failed"
      | some actions =>
          match actions with
          | [] => Except.ok []
          | _ => Except.ok actions

/-- `Reason.get_next_actions` (`src/core/brain/reason.py`): delegates to the
Gemini adapter and converts any raise into the empty list. -/
def reason_get_next_actions (res : Except String (List PAction)) : List PAction :=
  match res with
  | Except.ok as => as
  | Except.error _ => []

lemma quota_step_nonneg (maxSteps : Int) (hmax : 0 ≤ maxSteps) (st : RState)
    (op : QuotaOp) (h : 0 ≤ get_daily_reasoning_count st) :
    0 ≤ get_daily_reasoning_count (applyQuotaOp maxSteps st op) := by
  cases op with
  | checkReset today =>
      cases hd : st.last_run_date with
      | none =>
          simpa [applyQuotaOp, check_daily_reset, hd, get_daily_reasoning_count] using hmax
      | some d =>
          by_cases hlt : today > d
          · simpa [applyQuotaOp, check_daily_reset, hd, hlt, get_daily_reasoning_count] using hmax
          · simpa [applyQuotaOp, check_daily_reset, hd, hlt, get_daily_reasoning_count] using h
  | recordStep =>
      simp only [applyQuotaOp, record_reasoning_step, get_daily_reasoning_count] at *
      by_cases hc : (0 : Int) < st.daily_reasoning_count.getD 0
      · simp [hc]; omega
      · simpa [hc] using h

lemma quota_run_nonneg (maxSteps : Int) (hmax : 0 ≤ maxSteps) (ops : List QuotaOp)
    (st : RState) (h : 0 ≤ get_daily_reasoning_count st) :
    0 ≤ get_daily_reasoning_count (ops.foldl (applyQuotaOp maxSteps) st) := by
  induction ops generalizing st with
  | nil => simpa using h
  | cons op rest ih =>
      exact ih _ (quota_step_nonneg maxSteps hmax st op h)

lemma startswith_of_descendant (r w : String) (h : isDescendant r w = true) :
    pyStartswith r w = true := by
  simp only [isDescendant, Bool.or_eq_true] at h
  rcases h with h1 | h1
  · have : r = w := by exact eq_of_beq h1
    subst this
    exact List.isPrefixOf_iff_prefix.mpr List.prefix_rfl
  · have h2 : (w ++ "/").data <+: r.data := List.isPrefixOf_iff_prefix.mp h1
    have h3 : w.data <+: (w ++ "/").data := by
      rw [String.data_append]
      exact List.prefix_append _ _
    exact List.isPrefixOf_iff_prefix.mpr (h3.trans h2)

lemma add_actions_queue (m : Mem) (as : List PAction) :
    (m.add_actions as).action_queue = m.action_queue ++ as := by
  cases as <;> simp [Mem.add_actions]

lemma transform_queue_some (m : Mem) (a : PAction)
    (h : m.action_queue.getLast? = some a) :
    (todo_empty_transform m).action_queue =
      [PAction.terminate "todo list is empty", a] := by
  simp [todo_empty_transform, Mem.pop_last_action, Mem.empty_actions, Mem.add_action, h]

lemma transform_queue_none (m : Mem) (h : m.action_queue = []) :
    (todo_empty_transform m).action_queue = [PAction.terminate "todo list is empty"] := by
  simp [todo_empty_transform, Mem.pop_last_action, Mem.empty_actions, Mem.add_action, h]

/-- C10: pops on the action queue are total: `pop_action`,
`pop_last_action` and `dequeue_action` return `none` on an empty queue and
otherwise remove and return the front (respectively last) element, while
the todo-list removal raises (returns `none`) exactly on an empty list. -/
theorem C10_queue_pops_total (m : Mem) (q : List PAction) :
    (Mem.pop_action m).1 = m.action_queue.head? ∧
    (Mem.pop_action m).2.action_queue = m.action_queue.tail ∧
    (Mem.pop_last_action m).1 = m.action_queue.getLast? ∧
    (Mem.pop_last_action m).2.action_queue = m.action_queue.dropLast ∧
    (dequeue_action q).1 = q.head? ∧
    (dequeue_action q).2 = q.tail ∧
    Mem.remove_todo m =
      (if m.todo.isEmpty then none else some { m with todo := m.todo.tail }) := by
  refine ⟨?_, ?_, ?_, ?_, ?_, ?_, ?_⟩
  · cases h : m.action_queue <;> simp [Mem.pop_action, h]
  · cases h : m.action_queue <;> simp [Mem.pop_action, h]
  · cases h : m.action_queue.getLast? <;> simp [Mem.pop_last_action, h]
  · cases h : m.action_queue.getLast? with
    | none =>
        have hq : m.action_queue = [] := List.getLast?_eq_none_iff.mp h
        simp [Mem.pop_last_action, h, hq]
    | some a => simp [Mem.pop_last_action, h]
  · cases q <;> simp [dequeue_action]
  · cases q <;> simp [dequeue_action]
  · cases h : m.todo <;> simp [Mem.remove_todo, h]

/-- C8 counterexample: an `UPDATE_TODO` append with an empty item is not
rejected; the handler appends the empty string to the todo list, refuting
the claim that insert/append succeed only on a non-empty item. -/
theorem C8_counterexample :
    handle_update_todo {} ToDoType.APPEND "" = some { todo := [""] } := rfl

/-- C8 (amended): append and insert succeed unconditionally (the item is
not validated, so even an empty item is accepted verbatim), and
`remove-front` raises exactly when the todo list is already empty,
otherwise removing exactly the front element. -/
theorem C8_amended_todo_ops (m : Mem) (item : String) :
    (handle_update_todo m ToDoType.APPEND item).map Mem.todo = some (m.todo ++ [item]) ∧
    (handle_update_todo m ToDoType.INSERT item).map Mem.todo = some (item :: m.todo) ∧
    (handle_update_todo m ToDoType.REMOVE item = none ↔ m.todo = []) ∧
    (handle_update_todo m ToDoType.REMOVE item).map Mem.todo =
      (if m.todo.isEmpty then none else some m.todo.tail) := by
  refine ⟨rfl, rfl, ?_, ?_⟩
  · cases h : m.todo <;> simp [handle_update_todo, Mem.remove_todo, h]
  · cases h : m.todo <;> simp [handle_update_todo, Mem.remove_todo, h]

/-- C9: every `APIError` raised by the reasoning-service call makes the
adapter return, without raising, exactly the two-action retry pair: a
`SLUMBER` action carrying the configured wait followed by the original
`Reason` action unchanged. -/
theorem C9_api_error_retry_pair (wait_seconds : Int) (e t : String)
    (fs ts : List String) (code : Int) :
    gemini_get_next_actions wait_seconds (PAction.reason e t fs ts)
        (ApiOutcome.apiError code) =
      Except.ok [PAction.slumber "gemini error, waiting to retry" wait_seconds,
        PAction.reason e t fs ts] := rfl

/-- C3: the daily quota resets to the configured maximum exactly once when
the wall-clock date passes the stored date (regardless of the previous
count), never increases otherwise, decrements by exactly one per recorded
step, stays non-negative along every reachable run, and recording fails
exactly when the reachable count is zero. -/
theorem C3_quota_invariants (maxSteps : Int) (today today0 d : Nat) (st : RState)
    (ops : List QuotaOp) (hmax : 0 ≤ maxSteps) :
    (check_daily_reset maxSteps today { st with last_run_date := some d } =
      if today > d then
        { st with daily_reasoning_count := some maxSteps, last_run_date := some today }
      else { st with last_run_date := some today }) ∧
    (check_daily_reset maxSteps today { st with last_run_date := none } =
      { st with daily_reasoning_count := some maxSteps, last_run_date := some today }) ∧
    (check_daily_reset maxSteps today (check_daily_reset maxSteps today st) =
      check_daily_reset maxSteps today st) ∧
    ((record_reasoning_step st).1 = false ↔ get_daily_reasoning_count st ≤ 0) ∧
    (get_daily_reasoning_count (record_reasoning_step st).2 =
      if 0 < get_daily_reasoning_count st then get_daily_reasoning_count st - 1
      else get_daily_reasoning_count st) ∧
    (0 ≤ get_daily_reasoning_count (runQuota maxSteps today0 ops)) ∧
    ((record_reasoning_step (runQuota maxSteps today0 ops)).1 = false ↔
      get_daily_reasoning_count (runQuota maxSteps today0 ops) = 0) := by
  have hinit : 0 ≤ get_daily_reasoning_count (check_daily_reset maxSteps today0 {}) := by
    simpa [check_daily_reset, get_daily_reasoning_count] using hmax
  have hrun : 0 ≤ get_daily_reasoning_count (runQuota maxSteps today0 ops) :=
    quota_run_nonneg maxSteps hmax ops _ hinit
  refine ⟨rfl, rfl, ?_, ?_, ?_, hrun, ?_⟩
  · cases hd : st.last_run_date with
    | none => simp [check_daily_reset, hd, lt_irrefl]
    | some dd =>
        by_cases hlt : today > dd
        · simp [check_daily_reset, hd, hlt, lt_irrefl]
        · simp [check_daily_reset, hd, hlt, lt_irrefl]
  · simp only [record_reasoning_step, get_daily_reasoning_count]
    by_cases hc : 0 < st.daily_reasoning_count.getD 0
    · simp [hc]
      try omega
    · simp [hc]
      try omega
  · simp only [record_reasoning_step, get_daily_reasoning_count]
    by_cases hc : 0 < st.daily_reasoning_count.getD 0
    · simp [hc]
      try omega
    · simp [hc]
      try omega
  · simp only [record_reasoning_step, get_daily_reasoning_count] at hrun ⊢
    by_cases hc : 0 < (runQuota maxSteps today0 ops).daily_reasoning_count.getD 0
    · simp [hc]
      try omega
    · simp [hc]
      try omega

/-- C3 witness: after a rollover-free fresh run of two recorded steps under
maximum 2, the remaining count is still non-negative. -/
theorem C3_quota_witness :
    0 ≤ get_daily_reasoning_count
      (runQuota 2 5 [QuotaOp.recordStep, QuotaOp.recordStep]) :=
  (C3_quota_invariants 2 5 5 0 {} [QuotaOp.recordStep, QuotaOp.recordStep]
    (by decide)).2.2.2.2.2.1

/-- C2 counterexample: the claimed equivalence fails in the right-to-left
reading of the code: with working directory `/app`, the sibling path
`workspacez/data.txt` resolves outside the workspace root `/app/workspace`,
yet the string-prefix check accepts it. -/
theorem C2_counterexample :
    is_file_path_safe "/app" "workspacez/data.txt" = true ∧
    isDescendant (abspath "/app" "workspacez/data.txt") (workspace_dir "/app") = false := by
  decide

/-- C2 (amended): the check accepts every non-empty path whose absolute
resolution is a descendant of the workspace root, and the three spec
examples evaluate as stated; the converse fails because the check is a bare
string-prefix test (see the counterexample). -/
theorem C2_amended_path_safety :
    (∀ cwd p : String, p ≠ "" →
      isDescendant (abspath cwd p) (workspace_dir cwd) = true →
      is_file_path_safe cwd p = true) ∧
    is_file_path_safe "/app" "workspace/subdir/file.txt" = true ∧
    is_file_path_safe "/app" "workspace/../outside.txt" = false ∧
    is_file_path_safe "/app" "/etc/passwd" = false := by
  refine ⟨?_, by decide, by decide, by decide⟩
  intro cwd p hp hdesc
  simp only [is_file_path_safe, if_neg hp]
  exact startswith_of_descendant _ _ hdesc

/-- C2 witness: the amended theorem applied to a concrete workspace
descendant. -/
theorem C2_amended_witness :
    is_file_path_safe "/app" "workspace/notes/a.txt" = true :=
  (C2_amended_path_safety).1 "/app" "workspace/notes/a.txt" (by decide) (by decide)

/-- C1: a write-type action (`WRITE_FILE` / `GENERATE_FILE` /
`MODIFY_FILE`) whose target path is protected leaves the disk untouched and
returns a proposal observation containing both the target path and the full
proposed content; the write is never performed. -/
theorem C1_protected_write_proposal (goal ty content : String) (d : Disk)
    (hty : ty = "GENERATE_FILE" ∨ ty = "MODIFY_FILE" ∨ ty = "WRITE_FILE")
    (hprot : is_protected_path goal (splitWritePayload content).1 = true) :
    (execute_action_gate goal ty content d).2 = d ∧
    (∃ s1 s2, (execute_action_gate goal ty content d).1 =
      s1 ++ (splitWritePayload content).1 ++ s2) ∧
    (∃ t1 t2, (execute_action_gate goal ty content d).1 =
      t1 ++ (splitWritePayload content).2 ++ t2) := by
  rcases hsp : splitWritePayload content with ⟨fp, fc⟩
  simp only [hsp] at hprot
  have hgate : execute_action_gate goal ty content d = (proposal_obs fp fc, d) := by
    rcases hty with h | h | h <;> subst h <;>
      simp [execute_action_gate, hsp, hprot]
  rw [hgate]
  refine ⟨rfl, ?_, ?_⟩
  · exact ⟨"ACTION PROPOSAL: CORE FILE MODIFICATION\nTARGET: ",
      "\n--- PROPOSED CONTENT START ---\n" ++ fc ++
        "\n--- PROPOSED CONTENT END ---\nAwaiting Architect Review, Version Control, and Deployment.",
      by simp [proposal_obs, String.append_assoc]⟩
  · exact ⟨"ACTION PROPOSAL: CORE FILE MODIFICATION\nTARGET: " ++ fp ++
        "\n--- PROPOSED CONTENT START ---\n",
      "\n--- PROPOSED CONTENT END ---\nAwaiting Architect Review, Version Control, and Deployment.",
      rfl⟩

/-- C1 witness: a concrete protected write (targeting `core/agent_core.py`)
leaves a concrete disk unchanged. -/
theorem C1_protected_write_witness :
    (execute_action_gate "goal.txt" "WRITE_FILE"
      "core/agent_core.py\nnew contents" [("data/a.txt", "keep")]).2 =
      [("data/a.txt", "keep")] :=
  (C1_protected_write_proposal "goal.txt" "WRITE_FILE"
    "core/agent_core.py\nnew contents" [("data/a.txt", "keep")]
    (Or.inr (Or.inr rfl)) (by decide)).1

/-- C7 (code bug): the startup scan seeds the file-content mapping with
paths relative to the scan root, but `_handle_read_file` looks up the
absolute resolution of its target, so a `READ_FILE` aimed at a
freshly-scanned path is rejected as untracked even though the path is a key
of the mapping and the file exists on disk. -/
theorem C7_scanned_path_rejected :
    (seed_from_scan ["core/agent_core.py"] {}).get_filepaths = ["core/agent_core.py"] ∧
    handle_read_file "/app/workspace" "core/agent_core.py"
        (seed_from_scan ["core/agent_core.py"] {})
        [("core/agent_core.py", "file body")] =
      Except.error "READ_FILE file path is not tracked in memory." := by
  exact ⟨rfl, rfl⟩

/-- C4: when the todo list is empty at the top of an iteration, the loop
rebuilds the queue as the synthetic `Terminate` followed by the most
recently queued action (just the `Terminate` when the queue was empty), and
from such a state — or whenever a `Terminate` is at the front — the run
dispatches no further action. -/
theorem C4_empty_todo_termination (dispatch : PAction → Mem → Mem) (fuel : Nat)
    (m : Mem) (a : PAction) (e : String) :
    (m.action_queue.getLast? = some a →
      (todo_empty_transform m).action_queue =
        [PAction.terminate "todo list is empty", a]) ∧
    (m.action_queue = [] →
      (todo_empty_transform m).action_queue = [PAction.terminate "todo list is empty"]) ∧
    (m.todo = [] → (run_loop dispatch fuel m).2 = []) ∧
    (m.todo ≠ [] → m.action_queue.head? = some (PAction.terminate e) →
      (run_loop dispatch fuel m).2 = []) := by
  refine ⟨transform_queue_some m a, transform_queue_none m, ?_, ?_⟩
  · intro h
    cases fuel with
    | zero => simp [run_loop]
    | succ n =>
        have hc : m.todo.isEmpty = true := by simp [h]
        cases hq : m.action_queue.getLast? with
        | none =>
            have hqq : m.action_queue = [] := List.getLast?_eq_none_iff.mp hq
            simp [run_loop, hc, Mem.pop_action, transform_queue_none m hqq, is_terminate]
        | some a2 =>
            simp [run_loop, hc, Mem.pop_action, transform_queue_some m a2 hq, is_terminate]
  · intro h hhead
    cases fuel with
    | zero => simp [run_loop]
    | succ n =>
        have hc : m.todo.isEmpty = false := by
          cases ht : m.todo with
          | nil => exact absurd ht h
          | cons x xs => simp [ht]
        obtain ⟨rest, hqq⟩ : ∃ rest, m.action_queue = PAction.terminate e :: rest := by
          cases hq : m.action_queue with
          | nil => simp [hq] at hhead
          | cons b bs =>
              rw [hq] at hhead
              simp at hhead
              exact ⟨bs, by rw [hhead]⟩
        simp [run_loop, hc, Mem.pop_action, hqq, is_terminate]

/-- C4 witness: a run from an empty todo list with a single queued `Reason`
action dispatches nothing. -/
theorem C4_witness :
    (run_loop (fun _ m => m) 3
      { action_queue := [PAction.reason "e" "last task" [] []], todo := [] }).2 =
      ([] : List PAction) :=
  (C4_empty_todo_termination (fun _ m => m) 3
    { action_queue := [PAction.reason "e" "last task" [] []], todo := [] }
    (PAction.reason "e" "last task" [] []) "x").2.2.1 rfl

/-- C5: an empty reasoning response, or one not ending in a `Reason`
action, is absorbed without raising: the returned actions are enqueued
followed by exactly one synthetic debug `Reason` action (so the queue grows
by the response length plus one), the original task is kept verbatim inside
the synthetic action, and the original task is pushed onto the front of the
todo list. -/
theorem C5_invalid_response_recovery (origTask : String) (resp : List PAction) (m : Mem)
    (h : resp = [] ∨ last_is_reason resp = false) :
    (handle_reason_response origTask resp m).action_queue =
      m.action_queue ++ resp ++ [debug_reason_action origTask] ∧
    (handle_reason_response origTask resp m).action_queue.length =
      m.action_queue.length + resp.length + 1 ∧
    (∃ pre, debug_reason_task origTask = pre ++ origTask) ∧
    (handle_reason_response origTask resp m).todo = origTask :: m.todo := by
  have hcond : (resp.isEmpty || !last_is_reason resp) = true := by
    rcases h with h | h
    · simp [h]
    · simp [h]
  have hq : (handle_reason_response origTask resp m).action_queue =
      m.action_queue ++ resp ++ [debug_reason_action origTask] := by
    simp [handle_reason_response, hcond, Mem.add_immediate_todo, Mem.add_action,
      add_actions_queue]
  refine ⟨hq, ?_,
    ⟨"diagnose why the previous reasoning step produced no/invalid continuation for task: ",
      rfl⟩, ?_⟩
  · rw [hq]
    simp
    omega
  · simp [handle_reason_response, hcond, Mem.add_immediate_todo, Mem.add_action,
      Mem.add_actions]
    cases resp <;> simp [Mem.add_actions]

/-- C5 witness: a response of a read and a write (no trailing `Reason`)
enqueued into an empty memory yields exactly three queued items. -/
theorem C5_witness :
    (handle_reason_response "fix tests"
      [PAction.readFile "" "x", PAction.writeFile "" "y" "" ""] {}).action_queue.length = 3 :=
  (C5_invalid_response_recovery "fix tests"
    [PAction.readFile "" "x", PAction.writeFile "" "y" "" ""] {}
    (Or.inr rfl)).2.1

lemma toDoFromTag_toDoTag (tt : ToDoType) : toDoFromTag (toDoTag tt) = some tt := by
  cases tt <;> rfl

lemma countFromTag_countTag (c : Count) : countFromTag (countTag c) = some c := by
  cases c
  rfl

lemma decodeStrs_map (xs : List String) : decodeStrs (xs.map JVal.jstr) = some xs := by
  induction xs with
  | nil => rfl
  | cons x rest ih => simp [decodeStrs, asStr, ih]

lemma decodeStrList_jStrList (xs : List String) :
    decodeStrList (jStrList xs) = some xs := by
  simp [decodeStrList, jStrList, decodeStrs_map]

lemma decodeStrPairs_map (kvs : List (String × String)) :
    decodeStrPairs (kvs.map (fun kv => (kv.1, JVal.jstr kv.2))) = some kvs := by
  induction kvs with
  | nil => rfl
  | cons kv rest ih => simp [decodeStrPairs, asStr, ih]

lemma decodeStrMap_jStrMap (kvs : List (String × String)) :
    decodeStrMap (jStrMap kvs) = some kvs := by
  simp [decodeStrMap, jStrMap, decodeStrPairs_map]

lemma decodeCountPairs_map (kvs : List (Count × Int)) :
    decodeCountPairs (kvs.map (fun kv => (countTag kv.1, JVal.jnum kv.2))) = some kvs := by
  induction kvs with
  | nil => rfl
  | cons kv rest ih => simp [decodeCountPairs, countFromTag_countTag, asInt, ih]

lemma decodeCounters_jCounters (kvs : List (Count × Int)) :
    decodeCounters (jCounters kvs) = some kvs := by
  simp [decodeCounters, jCounters, decodeCountPairs_map]

lemma actionFromJson_actionToJson (a : PAction) :
    actionFromJson (actionToJson a) = some a := by
  cases a
  all_goals
    simp [actionToJson, actionFromJson, jField, jGet, asStr, asBool, asInt, asObj,
      decodeStrList_jStrList, toDoFromTag_toDoTag, bind, Option.bind]

lemma decodeActions_map (as : List PAction) :
    decodeActions (as.map actionToJson) = some as := by
  induction as with
  | nil => rfl
  | cons a rest ih => simp [decodeActions, actionFromJson_actionToJson, ih]

/-- C6 (code bug): every state the program actually persists fails to
reload.  `Memory.memorize` assigns the float `current_timestamp()` into the
str-typed `last_memorized` field (and `__init__` into `deployed_at`), so
the persisted JSON carries numbers where `Mem.model_validate_json` demands
strings and validation rejects the file — for every memory state and every
pair of timestamps, regardless of the queue contents.  On the well-typed
records the program never persists (both timestamp fields strings) the
round-trip is the identity, so the durability failure is precisely this
timestamp-typing slip. -/
theorem C6_timestamp_reload_failure (m : Mem) (deployTs saveTs : Int) :
    json_typed_load (memorize_dump deployTs saveTs m) = none ∧
    json_typed_load (json_dump m) = some m := by
  constructor
  · simp [json_typed_load, memorize_dump, jField, jGet, asArr, asStr, asBool,
      decodeActions_map, decodeCounters_jCounters, decodeStrMap_jStrMap,
      decodeStrList_jStrList, bind, Option.bind]
  · simp [json_typed_load, json_dump, jField, jGet, asArr, asStr, asBool,
      decodeActions_map, decodeCounters_jCounters, decodeStrMap_jStrMap,
      decodeStrList_jStrList, bind, Option.bind]

end Agent
